import Mathlib

/-!
Verification of the Auth47 challenge lifecycle implemented in `server.js`
of the bip47-website repository, together with the payment-code validation
endpoint.  The server keeps a `Map` from nonce strings to challenge
records (`pendingAuths`); the embedding below models that map as an
association list with `Map.get` / `Map.set` / `Map.delete` semantics,
and each HTTP handler as a pure function from the request body, the
current time, and the results of the external capabilities (QR encoder,
Auth47 signature verifier, MongoDB persistence) to the new store and the
response.  Times are in milliseconds (`Date.now()`) or whole Unix
seconds (`Math.floor(Date.now() / 1000)`), modelled as `Nat`.
-/

namespace BIP47Site

/-- A challenge record, as stored in `pendingAuths` (server.js:78-82 and
219-224).  `timestamp` is `Date.now()` at issuance (ms), `expiry` is an
absolute Unix-seconds deadline.  The last four fields are `undefined`
until the record is marked verified, hence `Option`. -/
structure AuthRecord where
  timestamp : Nat
  verified : Bool
  expiry : Nat
  nym : Option String := none
  paymentCode : Option String := none
  challenge : Option String := none
  signature : Option String := none
deriving Repr, DecidableEq

/-- The `pendingAuths` map, modelled as an association list from nonce to
record.  A JavaScript `Map` has unique keys; `storeWF` below captures that
representation invariant. -/
def Store := List (String × AuthRecord)

instance : DecidableEq Store := by
  unfold Store
  infer_instance

/-- `pendingAuths.get(k)`: the value at the first matching key. -/
def mapGet : Store → String → Option AuthRecord
  | [], _ => none
  | (k', v) :: rest, k => if k' = k then some v else mapGet rest k

/-- `pendingAuths.set(k, v)`: replace the entry at `k` if present,
otherwise append a new entry. -/
def mapSet : Store → String → AuthRecord → Store
  | [], k, v => [(k, v)]
  | (k', v') :: rest, k, v =>
      if k' = k then (k, v) :: rest else (k', v') :: mapSet rest k v

/-- `pendingAuths.delete(k)`: remove the entry at `k`. -/
def mapDelete : Store → String → Store
  | [], _ => []
  | (k', v') :: rest, k => if k' = k then rest else (k', v') :: mapDelete rest k

/-- Representation invariant of a JavaScript `Map`: keys are not
duplicated. -/
def storeWF (s : Store) : Prop := (s.map Prod.fst).Nodup

instance (s : Store) : Decidable (storeWF s) := by
  unfold storeWF
  infer_instance

/-- JavaScript truthiness check `!x` for a field that is either absent
(`undefined`/`null`) or a string: falsy when absent or empty. -/
def falsy : Option String → Bool
  | none => true
  | some s => s.isEmpty

/-- Split a character list at the first occurrence of `c`: the part
before it, and (when present) the part after it. -/
def splitAtChar (c : Char) : List Char → List Char × Option (List Char)
  | [] => ([], none)
  | x :: xs =>
      if x = c then ([], some xs)
      else
        let p := splitAtChar c xs
        (x :: p.1, p.2)

/-- A valid WHATWG URL scheme: a letter followed by letters, digits,
`+`, `-` or `.` (`new URL` throws otherwise). -/
def validScheme : List Char → Bool
  | [] => false
  | c :: cs => c.isAlpha && cs.all (fun d => d.isAlphanum || d = '+' || d = '-' || d = '.')

/-- Split a character list at every occurrence of `c` (the list of
pieces is never empty). -/
def splitList (c : Char) : List Char → List (List Char)
  | [] => [[]]
  | x :: xs =>
      if x = c then [] :: splitList c xs
      else
        match splitList c xs with
        | [] => [[x]]
        | p :: ps => (x :: p) :: ps

/-- Scan query pieces for the first one whose part before `=` equals
`key`; its value is the part after `=` (`""` when the piece has no `=`). -/
def findParam (key : String) : List (List Char) → Option String
  | [] => none
  | p :: ps =>
      let kv := splitAtChar '=' p
      if String.mk kv.1 = key then some (String.mk ((kv.2).getD []))
      else findParam key ps

/-- `URLSearchParams.get(key)` over the raw query text: split on `&` and
take the first piece keyed by `key`.  Percent-decoding is not modelled:
the only parameter the server reads is `e`, a decimal number. -/
def getQueryParam (key : String) (q : List Char) : Option String :=
  if q.isEmpty then none else findParam key (splitList '&' q)

/-- Strip the fragment (`#...`) from a character list, as the URL parser
does before exposing `search` and `pathname`. -/
def dropFragment (cs : List Char) : List Char := (splitAtChar '#' cs).1

/-- Model of the nonce/expiry extraction at server.js:152-166: run
`new URL(challenge)`, take
`challengeUrl.hostname || challengeUrl.pathname.replace(/^\/\//, '')` as
the nonce and `new URLSearchParams(challengeUrl.search).get('e')` as the
expiry parameter; `none` when `new URL` throws (no valid scheme).  The
WHATWG parser is modelled for non-special schemes such as `auth47`
(opaque host kept verbatim, no percent-encoding or lowercasing): after
`scheme:` an input starting `//` has a host running to the next `/` or
`?` and the path after it, otherwise the whole remainder before `?` is
the path and the host is empty. -/
def parseChallenge (s : String) : Option (String × Option String) :=
  match splitAtChar ':' s.toList with
  | (_, none) => none
  | (schemeCs, some rest0) =>
    if validScheme schemeCs then
      let rest := dropFragment rest0
      match rest with
      | '/' :: '/' :: r =>
          let hp := splitAtChar '?' r
          let host := hp.1.takeWhile (· ≠ '/')
          let pathname := hp.1.dropWhile (· ≠ '/')
          let nonce :=
            if host ≠ [] then String.mk host
            else
              match pathname with
              | '/' :: '/' :: p => String.mk p
              | p => String.mk p
          some (nonce, (hp.2).bind (getQueryParam "e"))
      | r =>
          let pq := splitAtChar '?' r
          some (String.mk pq.1, (pq.2).bind (getQueryParam "e"))
    else none

/-- `parseInt(s, 10)`: skip leading whitespace, read an optional sign and
then a maximal run of decimal digits; `none` (JavaScript `NaN`) when no
digit is read. -/
def jsParseInt (s : String) : Option Int :=
  let cs := s.toList.dropWhile Char.isWhitespace
  let signAndRest : Bool × List Char :=
    match cs with
    | '-' :: r => (true, r)
    | '+' :: r => (false, r)
    | r => (false, r)
  let digits := signAndRest.2.takeWhile Char.isDigit
  if digits.isEmpty then none
  else
    let v : Nat := digits.foldl (fun a c => a * 10 + (c.toNat - '0'.toNat)) 0
    some (if signAndRest.1 then -(v : Int) else (v : Int))

/-- The response of `GET /start-auth` (server.js:93-99). -/
structure IssueResponse where
  uri : String
  qr : String
  nonce : String
  callbackUrl : String
  expiry : Nat
deriving Repr, DecidableEq

/-- The opportunistic sweep at server.js:85-89: delete every record
whose age `Date.now() - value.timestamp` exceeds 300000 ms. -/
def sweepOld (nowMs : Nat) (s : Store) : Store :=
  s.filter (fun kv => ¬ kv.2.timestamp + 300000 < nowMs)

/-- `GET /start-auth` (server.js:65-104).  `nonce` stands for the 16
random bytes hex-encoded, `qrResult` for the outcome of the external
`QRCode.toDataURL(uri)` call (`.error` when it throws, in which case the
handler's catch block answers 500 before the record is ever inserted).
Computes `expiry = Math.floor(Date.now()/1000) + 300`, builds the URI by
plain string concatenation (the callback URL is embedded verbatim, per
the comment at server.js:73), inserts the fresh record and then runs the
sweep. -/
def startAuth (callbackUrl nonce : String) (nowMs : Nat)
    (qrResult : Except String String) (s : Store) :
    Store × Except String IssueResponse :=
  let expiry := nowMs / 1000 + 300
  let uri := "auth47://" ++ nonce ++ "?c=" ++ callbackUrl ++ "&e=" ++ toString expiry
  match qrResult with
  | .error e => (s, .error e)
  | .ok qr =>
      let s1 := mapSet s nonce
        { timestamp := nowMs, verified := false, expiry := expiry }
      (sweepOld nowMs s1, .ok ⟨uri, qr, nonce, callbackUrl, expiry⟩)

/-- The response of `GET /check-auth/:nonce` (server.js:107-131). -/
inductive StatusResponse where
  | invalid
  | verified (nym paymentCode challenge signature : Option String)
  | pending
deriving Repr, DecidableEq

/-- `GET /check-auth/:nonce` (server.js:107-131): look the nonce up;
no record → `invalid`, a verified record → `verified` with the stored
proof data, otherwise `pending`.  Read-only. -/
def checkAuth (s : Store) (nonce : String) : StatusResponse :=
  match mapGet s nonce with
  | none => .invalid
  | some auth =>
      if auth.verified then .verified auth.nym auth.paymentCode auth.challenge auth.signature
      else .pending

/-- The fields of the proof body that the redemption handlers read
(`challenge`, `nym`, `signature` at server.js:138/259); each may be
absent. -/
structure ProofBody where
  challenge : Option String
  nym : Option String
  signature : Option String
deriving Repr, DecidableEq

/-- The JSON answer of `POST /verify`. -/
inductive VerifyResult where
  | ok (nym paymentCode : String)
  | err (msg : String)
deriving Repr, DecidableEq

/-- `POST /verify` (server.js:134-247).  `sigOk` is the outcome of the
external `verifier.verifyProof(req.body, 'bitcoin')` call
(`result === 'ok'`), `sigErr` its error message otherwise.  Returns the
new store and the JSON response.  The checks run in source order:
field presence, challenge parse (`new URL`), presence of the `e`
parameter, nonce lookup, expiry freshness (`expiryTime <= currentTime`,
with `parseInt` giving `NaN` modelled as `none`, which compares false),
expiry consistency (`auth.expiry !== expiryTime`, which a `NaN` fails),
replay (`auth.verified`), then the signature; on success the record is
mutated in place. -/
def verify (s : Store) (body : ProofBody) (nowMs : Nat)
    (sigOk : Bool) (sigErr : String) : Store × VerifyResult :=
  if falsy body.challenge || falsy body.nym || falsy body.signature then
    (s, .err "Missing required fields: challenge, nym, signature")
  else
    match parseChallenge (body.challenge.getD "") with
    | none => (s, .err "Invalid challenge format")
    | some (nonce, eParam) =>
      if falsy eParam then (s, .err "Missing expiry parameter in challenge")
      else
        match mapGet s nonce with
        | none => (s, .err "Invalid or expired nonce")
        | some auth =>
          let currentTime : Int := (nowMs / 1000 : Nat)
          let expiryTime := jsParseInt (eParam.getD "")
          if (expiryTime.map (fun t => decide (t ≤ currentTime))).getD false then
            (s, .err "Challenge has expired")
          else if expiryTime ≠ some (auth.expiry : Int) then
            (s, .err "Expiry mismatch in challenge")
          else if auth.verified then
            (s, .err "Nonce already used")
          else if sigOk then
            let auth2 := { auth with
              verified := true, nym := body.nym, paymentCode := body.nym,
              challenge := body.challenge, signature := body.signature }
            (mapSet s nonce auth2, .ok (body.nym.getD "") (body.nym.getD ""))
          else (s, .err sigErr)

/-- The response of `POST /callback`: either the static callback page or
a redirect to `/callback?nonce=...`. -/
inductive CallbackResult where
  | page
  | redirect (nonce : String)
deriving Repr, DecidableEq

/-- `POST /callback` (server.js:255-346).  Identical validation sequence
to `POST /verify`, but every failure before the signature step answers
with the static callback page; both signature outcomes redirect with the
nonce, and a throwing `verifier.verifyProof` (`sigThrows`) falls back to
the page.  Only the success branch mutates the store. -/
def callbackPost (s : Store) (body : ProofBody) (nowMs : Nat)
    (sigThrows sigOk : Bool) : Store × CallbackResult :=
  if falsy body.challenge || falsy body.nym || falsy body.signature then
    (s, .page)
  else
    match parseChallenge (body.challenge.getD "") with
    | none => (s, .page)
    | some (nonce, eParam) =>
      if falsy eParam then (s, .page)
      else
        match mapGet s nonce with
        | none => (s, .page)
        | some auth =>
          let currentTime : Int := (nowMs / 1000 : Nat)
          let expiryTime := jsParseInt (eParam.getD "")
          if (expiryTime.map (fun t => decide (t ≤ currentTime))).getD false then
            (s, .page)
          else if expiryTime ≠ some (auth.expiry : Int) then
            (s, .page)
          else if auth.verified then
            (s, .page)
          else if sigThrows then
            (s, .page)
          else if sigOk then
            let auth2 := { auth with
              verified := true, nym := body.nym, paymentCode := body.nym,
              challenge := body.challenge, signature := body.signature }
            (mapSet s nonce auth2, .redirect nonce)
          else (s, .redirect nonce)

/-- The body of `POST /api/guestbook/submit` (server.js:578). -/
structure SubmitBody where
  nonce : Option String
  message : Option String
  challenge : Option String
  signature : Option String
  nym : Option String
deriving Repr, DecidableEq

/-- The document inserted into the `messages` collection
(server.js:633-642).  `nymName` and `nymAvatar` come from the external
Paynym lookup (defaults `nym` and `null` when it fails); `createdAt` is
the insertion wall-clock time. -/
structure MessageDoc where
  paymentCode : String
  nymName : String
  nymAvatar : Option String
  message : String
  signature : String
  verified : Bool
  createdAt : Nat
  nonce : String
deriving Repr, DecidableEq

/-- The `messageDoc` built at server.js:633-642 from the request body,
the Paynym lookup results and the insertion time. -/
def messageDocOf (body : SubmitBody) (nymName : String) (nymAvatar : Option String)
    (nowMs : Nat) : MessageDoc :=
  { paymentCode := body.nym.getD "", nymName := nymName, nymAvatar := nymAvatar,
    message := body.message.getD "", signature := body.signature.getD "",
    verified := true, createdAt := nowMs, nonce := body.nonce.getD "" }

/-- The response of `POST /api/guestbook/submit`. -/
inductive SubmitResult where
  | badRequest
  | dbUnavailable
  | unauthorized
  | serverError
  | success
deriving Repr, DecidableEq

/-- `POST /api/guestbook/submit` (server.js:576-661).  `dbAvailable`
models the `db` handle being live, `persistOk` the outcome of the
external `insertOne` (when it throws, the catch block answers 500, so
the `pendingAuths.delete(nonce)` at server.js:649 — which only runs
after the insert — never happens).  `nymName`/`nymAvatar` are the
results of the external Paynym lookup, and `nowMs` the insertion time.
Returns the new store, the new message list, and the response. -/
def guestbookSubmit (s : Store) (msgs : List MessageDoc) (body : SubmitBody)
    (dbAvailable persistOk : Bool) (nymName : String) (nymAvatar : Option String)
    (nowMs : Nat) : Store × List MessageDoc × SubmitResult :=
  if falsy body.nonce || falsy body.message || falsy body.challenge ||
      falsy body.signature || falsy body.nym then
    (s, msgs, .badRequest)
  else if ¬ dbAvailable then
    (s, msgs, .dbUnavailable)
  else
    let nonce := body.nonce.getD ""
    let nym := body.nym.getD ""
    match mapGet s nonce with
    | none => (s, msgs, .unauthorized)
    | some auth =>
      if ¬ auth.verified then (s, msgs, .unauthorized)
      else if auth.paymentCode ≠ some nym then (s, msgs, .unauthorized)
      else
        let doc : MessageDoc := messageDocOf body nymName nymAvatar nowMs
        if persistOk then (mapDelete s nonce, msgs ++ [doc], .success)
        else (s, msgs, .serverError)

/-- The `checks` object of `POST /api/bip47/validate`
(server.js:504-510). -/
structure ValidateChecks where
  format : Bool
  length : Bool
  base58 : Bool
  checksum : Bool
  version : Bool
deriving Repr, DecidableEq

/-- The response of `POST /api/bip47/validate`: a 400 for a falsy
payment code, otherwise the `valid` flag and the individual checks. -/
inductive ValidateResult where
  | badRequest
  | ok (valid : Bool) (checks : ValidateChecks)
deriving Repr, DecidableEq

/-- A character of the Base58 alphabet, the class
`[1-9A-HJ-NP-Za-km-z]` of the regex at server.js:507. -/
def isBase58Char (c : Char) : Bool :=
  ('1' ≤ c && c ≤ '9') ||
  ('A' ≤ c && c ≤ 'H') || ('J' ≤ c && c ≤ 'N') || ('P' ≤ c && c ≤ 'Z') ||
  ('a' ≤ c && c ≤ 'k') || ('m' ≤ c && c ≤ 'z')

/-- The regex test `/^[1-9A-HJ-NP-Za-km-z]+$/.test(paymentCode)`: a
nonempty string of Base58 characters. -/
def base58Test (s : String) : Bool :=
  ¬ s.toList.isEmpty && s.toList.all isBase58Char

/-- The check `paymentCode.startsWith('PM8T')`. -/
def startsWithPM8T (s : String) : Bool :=
  match s.toList with
  | 'P' :: 'M' :: '8' :: 'T' :: _ => true
  | _ => false

/-- `POST /api/bip47/validate` (server.js:496-538).  `parserOk`
models the external `bip47.fromBase58` call: `true` when it does not
throw, in which case both `checksum` and `version` are set; the string
length is in UTF-16 code units, which for the ASCII inputs the other
checks admit coincides with the codepoint count used here.  `valid` is
the conjunction of all five checks. -/
def validatePaymentCode (parserOk : String → Bool) (paymentCode : Option String) :
    ValidateResult :=
  if falsy paymentCode then .badRequest
  else
    let p := paymentCode.getD ""
    let checks : ValidateChecks :=
      { format := startsWithPM8T p,
        length := p.length == 80,
        base58 := base58Test p,
        checksum := parserOk p,
        version := parserOk p }
    .ok (checks.format && checks.length && checks.base58 &&
         checks.checksum && checks.version) checks

/-! Concrete sample data used by the witnesses. -/

/-- A sample proof body whose challenge names nonce `ab` and expiry
`1000`. -/
def sampleBody : ProofBody :=
  { challenge := some "auth47://ab?c=http://cb&e=1000",
    nym := some "PM8Tsample", signature := some "sig" }

/-- A sample record for nonce `ab` that has already been verified. -/
def sampleAuthVerified : AuthRecord :=
  { timestamp := 0, verified := true, expiry := 1000,
    nym := some "PM8Tsample", paymentCode := some "PM8Tsample",
    challenge := some "auth47://ab?c=http://cb&e=1000", signature := some "sig" }

/-- A one-record store holding the verified sample record. -/
def sampleStoreVerified : Store := [("ab", sampleAuthVerified)]

/-- A sample record for nonce `ab` that is still pending. -/
def sampleAuthPending : AuthRecord :=
  { timestamp := 0, verified := false, expiry := 1000 }

/-- A one-record store holding the pending sample record. -/
def sampleStorePending : Store := [("ab", sampleAuthPending)]

/-- A sample proof body whose challenge has been tampered with: the
expiry parameter reads `5` while the record for nonce `ab` stores
`1000`. -/
def tamperedPastBody : ProofBody :=
  { challenge := some "auth47://ab?c=http://cb&e=5",
    nym := some "PM8Tsample", signature := some "sig" }

/-- A sample proof body whose challenge has been tampered with towards
the future: the expiry parameter reads `2000` while the record for nonce
`ab` stores `1000`. -/
def tamperedFutureBody : ProofBody :=
  { challenge := some "auth47://ab?c=http://cb&e=2000",
    nym := some "PM8Tsample", signature := some "sig" }

/-- A 111-character Base58 string with the `PM8T` prefix — the length
of the standard Base58 form of a BIP47 payment code. -/
def sample111 : String :=
  String.mk ('P' :: 'M' :: '8' :: 'T' :: List.replicate 107 '1')

/-! Helper lemmas about the store operations. -/

/-- A key outside the key list is not found. -/
theorem mapGet_not_mem {s : Store} {k : String}
    (h : ¬ k ∈ s.map Prod.fst) : mapGet s k = none := by
  induction s with
  | nil => rfl
  | cons kv rest ih =>
    obtain ⟨k', v⟩ := kv
    simp only [List.map_cons, List.mem_cons, not_or] at h
    have hne : k' ≠ k := fun hk => h.1 hk.symm
    simp [mapGet, hne, ih h.2]

/-- Setting one key does not change lookups of another. -/
theorem mapGet_mapSet_ne {s : Store} {k' k : String} {v : AuthRecord}
    (h : k' ≠ k) : mapGet (mapSet s k' v) k = mapGet s k := by
  induction s with
  | nil => simp [mapSet, mapGet, h]
  | cons kv rest ih =>
    obtain ⟨k0, v0⟩ := kv
    by_cases h0 : k0 = k'
    · subst h0
      simp [mapSet, mapGet, h]
    · simp only [mapSet, if_neg h0, mapGet]
      by_cases h1 : k0 = k
      · simp [h1]
      · simp [h1, ih]

/-- Setting a key makes lookups of it find the new value. -/
theorem mapGet_mapSet_self {s : Store} {k : String} {v : AuthRecord} :
    mapGet (mapSet s k v) k = some v := by
  induction s with
  | nil => simp [mapSet, mapGet]
  | cons kv rest ih =>
    obtain ⟨k0, v0⟩ := kv
    by_cases h0 : k0 = k
    · subst h0
      simp [mapSet, mapGet]
    · simp [mapSet, h0, mapGet, ih]

/-- Deleting one key does not change lookups of another. -/
theorem mapGet_mapDelete_ne {s : Store} {k' k : String}
    (h : k' ≠ k) : mapGet (mapDelete s k') k = mapGet s k := by
  induction s with
  | nil => rfl
  | cons kv rest ih =>
    obtain ⟨k0, v0⟩ := kv
    by_cases h0 : k0 = k'
    · subst h0
      simp [mapDelete, mapGet, h]
    · simp only [mapDelete, if_neg h0, mapGet]
      by_cases h1 : k0 = k
      · simp [h1]
      · simp [h1, ih]

/-- In a well-formed store, a deleted key is gone. -/
theorem mapGet_mapDelete_self {s : Store} {k : String} (wf : storeWF s) :
    mapGet (mapDelete s k) k = none := by
  induction s with
  | nil => rfl
  | cons kv rest ih =>
    obtain ⟨k0, v0⟩ := kv
    simp only [storeWF, List.map_cons, List.nodup_cons] at wf
    by_cases h0 : k0 = k
    · subst h0
      simpa [mapDelete] using mapGet_not_mem wf.1
    · simp [mapDelete, h0, mapGet, ih wf.2]

/-- In a well-formed store, filtering either keeps a bound key's value
unchanged or removes the key. -/
theorem mapGet_filter_or {s : Store} {k : String} {a : AuthRecord}
    (p : String × AuthRecord → Bool)
    (wf : storeWF s) (h : mapGet s k = some a) :
    mapGet (s.filter p) k = some a ∨ mapGet (s.filter p) k = none := by
  induction s with
  | nil => simp [mapGet] at h
  | cons kv rest ih =>
    obtain ⟨k0, v0⟩ := kv
    simp only [storeWF, List.map_cons, List.nodup_cons] at wf
    by_cases h0 : k0 = k
    · subst h0
      simp [mapGet] at h
      subst h
      by_cases hp : p (k0, v0)
      · left
        simp [List.filter_cons, hp, mapGet]
      · right
        simp only [List.filter_cons, hp, Bool.false_eq_true, if_false]
        apply mapGet_not_mem
        intro hmem
        apply wf.1
        simp only [List.mem_map] at hmem ⊢
        obtain ⟨kv, hkv, hfst⟩ := hmem
        exact ⟨kv, (List.mem_filter.mp hkv).1, hfst⟩
    · simp only [mapGet, if_neg h0] at h
      have h2 := ih wf.2 h
      by_cases hp : p (k0, v0)
      · simp only [List.filter_cons, hp, if_true, mapGet, if_neg h0]
        exact h2
      · simp only [List.filter_cons, hp, Bool.false_eq_true, if_false]
        exact h2

/-- Filtering keeps a bound key's value when the predicate accepts the
entry the lookup finds. -/
theorem mapGet_filter_of_get {s : Store} {k : String} {v : AuthRecord}
    {p : String × AuthRecord → Bool}
    (h : mapGet s k = some v) (hp : p (k, v) = true) :
    mapGet (s.filter p) k = some v := by
  induction s with
  | nil => simp [mapGet] at h
  | cons kv rest ih =>
    obtain ⟨k0, v0⟩ := kv
    by_cases h0 : k0 = k
    · subst h0
      simp [mapGet] at h
      subst h
      simp [List.filter_cons, hp, mapGet]
    · simp only [mapGet, if_neg h0] at h
      by_cases hq : p (k0, v0)
      · simp only [List.filter_cons, hq, if_true, mapGet, if_neg h0]
        exact ih h
      · simp only [List.filter_cons, hq, Bool.false_eq_true, if_false]
        exact ih h

/-- The keys after a `set` are the old keys plus the set key. -/
theorem mem_keys_mapSet {s : Store} {k x : String} {v : AuthRecord} :
    x ∈ (mapSet s k v).map Prod.fst ↔ x = k ∨ x ∈ s.map Prod.fst := by
  induction s with
  | nil => simp [mapSet]
  | cons kv rest ih =>
    obtain ⟨k0, v0⟩ := kv
    by_cases h0 : k0 = k
    · subst h0
      simp [mapSet]
    · simp [mapSet, h0, ih]
      tauto

/-- `set` preserves well-formedness. -/
theorem storeWF_mapSet {s : Store} {k : String} {v : AuthRecord}
    (wf : storeWF s) : storeWF (mapSet s k v) := by
  induction s with
  | nil => simp [mapSet, storeWF]
  | cons kv rest ih =>
    obtain ⟨k0, v0⟩ := kv
    simp only [storeWF, List.map_cons, List.nodup_cons] at wf
    by_cases h0 : k0 = k
    · subst h0
      simpa [storeWF, mapSet, List.nodup_cons] using wf
    · simp only [storeWF, mapSet, if_neg h0, List.map_cons, List.nodup_cons]
      refine ⟨?_, ih wf.2⟩
      intro hmem
      rcases mem_keys_mapSet.mp hmem with h | h
      · exact h0 h
      · exact wf.1 h

/-- The store `POST /verify` returns is either untouched or the update
of one key that held an unverified record. -/
theorem verify_fst_cases (s : Store) (body : ProofBody) (nowMs : Nat)
    (sigOk : Bool) (sigErr : String) :
    (verify s body nowMs sigOk sigErr).1 = s ∨
    ∃ nonce auth auth2, mapGet s nonce = some auth ∧ auth.verified = false ∧
      (verify s body nowMs sigOk sigErr).1 = mapSet s nonce auth2 := by
  unfold verify
  dsimp only
  split
  · left; rfl
  · split
    · left; rfl
    next nonce eParam _ =>
      split
      · left; rfl
      · split
        · left; rfl
        next auth ha =>
          split
          · left; rfl
          · split
            · left; rfl
            · split
              · left; rfl
              next hv =>
                split
                · right
                  exact ⟨nonce, auth, _, ha, by simpa using hv, rfl⟩
                · left; rfl

/-- The store `POST /callback` returns is either untouched or the
update of one key that held an unverified record. -/
theorem callbackPost_fst_cases (s : Store) (body : ProofBody) (nowMs : Nat)
    (sigThrows sigOk : Bool) :
    (callbackPost s body nowMs sigThrows sigOk).1 = s ∨
    ∃ nonce auth auth2, mapGet s nonce = some auth ∧ auth.verified = false ∧
      (callbackPost s body nowMs sigThrows sigOk).1 = mapSet s nonce auth2 := by
  unfold callbackPost
  dsimp only
  split
  · left; rfl
  · split
    · left; rfl
    next nonce eParam _ =>
      split
      · left; rfl
      · split
        · left; rfl
        next auth ha =>
          split
          · left; rfl
          · split
            · left; rfl
            · split
              · left; rfl
              next hv =>
                split
                · left; rfl
                · split
                  · right
                    exact ⟨nonce, auth, _, ha, by simpa using hv, rfl⟩
                  · left; rfl

/-- The store `POST /api/guestbook/submit` returns is either untouched
or has exactly one key deleted. -/
theorem guestbookSubmit_fst_cases (s : Store) (msgs : List MessageDoc)
    (body : SubmitBody) (dbAvailable persistOk : Bool)
    (nymName : String) (nymAvatar : Option String) (nowMs : Nat) :
    (guestbookSubmit s msgs body dbAvailable persistOk nymName nymAvatar nowMs).1 = s ∨
    ∃ nonce,
      (guestbookSubmit s msgs body dbAvailable persistOk nymName nymAvatar nowMs).1 =
        mapDelete s nonce := by
  unfold guestbookSubmit
  dsimp only
  split
  · left; rfl
  · split
    · left; rfl
    · split
      · left; rfl
      · split
        · left; rfl
        · split
          · left; rfl
          · split
            · right; exact ⟨_, rfl⟩
            · left; rfl

/-- C1: once a nonce's record carries `verified = true` (committed by
either redemption path), every later redemption attempt via `POST
/verify` or `POST /callback` that passes the presence, parse, lookup and
both expiry checks is rejected as `Nonce already used` — on `/verify`
with that error message, on `/callback` with the static page — whatever
the signature verifier would have said (it is never consulted), and the
store is left unchanged. -/
theorem nonce_single_use
    (s : Store) (body : ProofBody) (nowMs : Nat)
    (nonce e : String) (auth : AuthRecord) (t : Int)
    (hch : falsy body.challenge = false)
    (hnym : falsy body.nym = false)
    (hsig : falsy body.signature = false)
    (hp : parseChallenge (body.challenge.getD "") = some (nonce, some e))
    (he : e ≠ "")
    (ha : mapGet s nonce = some auth)
    (ht : jsParseInt e = some t)
    (hfresh : ((nowMs / 1000 : Nat) : Int) < t)
    (hmatch : t = (auth.expiry : Int))
    (hv : auth.verified = true) :
    ∀ (sigOk sigThrows : Bool) (sigErr : String),
      verify s body nowMs sigOk sigErr = (s, .err "Nonce already used") ∧
      callbackPost s body nowMs sigThrows sigOk = (s, .page) := by
  intro sigOk sigThrows sigErr
  subst hmatch
  have hnle : ¬ ((auth.expiry : Int) ≤ ((nowMs / 1000 : Nat) : Int)) := not_le.mpr hfresh
  have hfs : falsy (some e) = false := by
    simp only [falsy, Bool.eq_false_iff, ne_eq, String.isEmpty_iff]
    exact he
  constructor <;>
    simp [verify, callbackPost, hch, hnym, hsig, hp, hfs, ha, ht, hnle, hv] <;>
    omega

/-- Witness for C1 at the sample data. -/
theorem nonce_single_use_witness :
    verify sampleStoreVerified sampleBody 500000 true "boom" =
      (sampleStoreVerified, .err "Nonce already used") ∧
    callbackPost sampleStoreVerified sampleBody 500000 false true =
      (sampleStoreVerified, .page) :=
  nonce_single_use sampleStoreVerified sampleBody 500000 "ab" "1000"
    sampleAuthVerified 1000
    (by decide) (by decide) (by decide) (by decide) (by decide)
    (by decide) (by decide) (by decide) (by decide) (by decide)
    true false "boom"

/-- C2: a redemption attempt (either path) whose extracted nonce has a
live record and whose extracted expiry `t` satisfies `t ≤ now` (Unix
seconds) fails as `Challenge has expired` — on `/verify` with that error
message, on `/callback` with the static page — whatever the signature
verifier would have said (it is never consulted), and the store is left
unchanged. -/
theorem expiry_enforcement
    (s : Store) (body : ProofBody) (nowMs : Nat)
    (nonce e : String) (auth : AuthRecord) (t : Int)
    (hch : falsy body.challenge = false)
    (hnym : falsy body.nym = false)
    (hsig : falsy body.signature = false)
    (hp : parseChallenge (body.challenge.getD "") = some (nonce, some e))
    (he : e ≠ "")
    (ha : mapGet s nonce = some auth)
    (ht : jsParseInt e = some t)
    (hle : t ≤ ((nowMs / 1000 : Nat) : Int)) :
    ∀ (sigOk sigThrows : Bool) (sigErr : String),
      verify s body nowMs sigOk sigErr = (s, .err "Challenge has expired") ∧
      callbackPost s body nowMs sigThrows sigOk = (s, .page) := by
  intro sigOk sigThrows sigErr
  have hfs : falsy (some e) = false := by
    simp only [falsy, Bool.eq_false_iff, ne_eq, String.isEmpty_iff]
    exact he
  constructor <;>
    simp [verify, callbackPost, hch, hnym, hsig, hp, hfs, ha, ht] <;>
    omega

/-- Witness for C2: at `now = 2000` s a challenge carrying expiry `1000`
is rejected as expired on both paths. -/
theorem expiry_enforcement_witness :
    verify sampleStorePending sampleBody 2000000 true "boom" =
      (sampleStorePending, .err "Challenge has expired") ∧
    callbackPost sampleStorePending sampleBody 2000000 false true =
      (sampleStorePending, .page) :=
  expiry_enforcement sampleStorePending sampleBody 2000000 "ab" "1000"
    sampleAuthPending 1000
    (by decide) (by decide) (by decide) (by decide) (by decide)
    (by decide) (by decide) (by decide)
    true false "boom"


/-- Counterexample to C3 as stated: at `now = 500` s, a challenge whose
expiry parameter was altered to `5` (the record for the still-live nonce
`ab` stores `1000`) is rejected as `Challenge has expired`, not as
`Expiry mismatch in challenge` — the freshness check at server.js:191
runs before the consistency check at server.js:199. -/
theorem tamper_detection_counterexample :
    jsParseInt "5" = some 5 ∧
    (5 : Int) ≠ (sampleAuthPending.expiry : Int) ∧
    mapGet sampleStorePending "ab" = some sampleAuthPending ∧
    parseChallenge (tamperedPastBody.challenge.getD "") = some ("ab", some "5") ∧
    verify sampleStorePending tamperedPastBody 500000 true "boom" =
      (sampleStorePending, .err "Challenge has expired") ∧
    verify sampleStorePending tamperedPastBody 500000 true "boom" ≠
      (sampleStorePending, .err "Expiry mismatch in challenge") := by
  refine ⟨by decide, by decide, by decide, by decide, by decide, by decide⟩

/-- C3 (amended): altering the expiry parameter of the challenge to a
numeric value that differs from the one stored at issuance fails with
`Expiry mismatch in challenge` (the static page on `/callback`) provided
the altered value is still in the future; an altered value already in
the past fails with `Challenge has expired` instead (see the
counterexample).  The store is unchanged and the signature verifier is
never consulted. -/
theorem tamper_detection_future
    (s : Store) (body : ProofBody) (nowMs : Nat)
    (nonce e : String) (auth : AuthRecord) (t : Int)
    (hch : falsy body.challenge = false)
    (hnym : falsy body.nym = false)
    (hsig : falsy body.signature = false)
    (hp : parseChallenge (body.challenge.getD "") = some (nonce, some e))
    (he : e ≠ "")
    (ha : mapGet s nonce = some auth)
    (ht : jsParseInt e = some t)
    (hfresh : ((nowMs / 1000 : Nat) : Int) < t)
    (hne : t ≠ (auth.expiry : Int)) :
    ∀ (sigOk sigThrows : Bool) (sigErr : String),
      verify s body nowMs sigOk sigErr = (s, .err "Expiry mismatch in challenge") ∧
      callbackPost s body nowMs sigThrows sigOk = (s, .page) := by
  intro sigOk sigThrows sigErr
  have hfs : falsy (some e) = false := by
    simp only [falsy, Bool.eq_false_iff, ne_eq, String.isEmpty_iff]
    exact he
  constructor <;>
    simp [verify, callbackPost, hch, hnym, hsig, hp, hfs, ha, ht, hne] <;>
    omega

/-- Witness for the amended C3: at `now = 500` s, the expiry parameter
altered to the future value `2000` (stored: `1000`) is rejected as a
mismatch on both paths. -/
theorem tamper_detection_future_witness :
    verify sampleStorePending tamperedFutureBody 500000 true "boom" =
      (sampleStorePending, .err "Expiry mismatch in challenge") ∧
    callbackPost sampleStorePending tamperedFutureBody 500000 false true =
      (sampleStorePending, .page) :=
  tamper_detection_future sampleStorePending tamperedFutureBody 500000 "ab" "2000"
    sampleAuthPending 2000
    (by decide) (by decide) (by decide) (by decide) (by decide)
    (by decide) (by decide) (by decide) (by decide)
    true false "boom"

/-- C4: `POST /verify` runs its checks in the fixed order presence →
challenge parse → `e`-parameter presence → record lookup → expiry
freshness → expiry consistency → replay → signature, short-circuiting on
the first failure with that step's error and an unchanged store; in
particular a proof with a missing field is answered `Missing required
fields` and an unparseable challenge `Invalid challenge format`, in both
cases for every store (so without consulting it) and with the store
returned untouched. -/
theorem verifier_check_order
    (s : Store) (body : ProofBody) (nowMs : Nat) (sigOk : Bool) (sigErr : String) :
    ((falsy body.challenge || falsy body.nym || falsy body.signature) = true →
      verify s body nowMs sigOk sigErr =
        (s, .err "Missing required fields: challenge, nym, signature")) ∧
    (falsy body.challenge = false → falsy body.nym = false →
     falsy body.signature = false →
      (parseChallenge (body.challenge.getD "") = none →
        verify s body nowMs sigOk sigErr = (s, .err "Invalid challenge format")) ∧
      (∀ nonce eo, parseChallenge (body.challenge.getD "") = some (nonce, eo) →
        (falsy eo = true →
          verify s body nowMs sigOk sigErr =
            (s, .err "Missing expiry parameter in challenge")) ∧
        (∀ e, eo = some e → falsy eo = false →
          (mapGet s nonce = none →
            verify s body nowMs sigOk sigErr = (s, .err "Invalid or expired nonce")) ∧
          (∀ auth, mapGet s nonce = some auth → ∀ t, jsParseInt e = some t →
            (t ≤ ((nowMs / 1000 : Nat) : Int) →
              verify s body nowMs sigOk sigErr = (s, .err "Challenge has expired")) ∧
            (((nowMs / 1000 : Nat) : Int) < t →
              (t ≠ (auth.expiry : Int) →
                verify s body nowMs sigOk sigErr =
                  (s, .err "Expiry mismatch in challenge")) ∧
              (t = (auth.expiry : Int) →
                (auth.verified = true →
                  verify s body nowMs sigOk sigErr = (s, .err "Nonce already used")) ∧
                (auth.verified = false →
                  (sigOk = true →
                    verify s body nowMs sigOk sigErr =
                      (mapSet s nonce { auth with
                          verified := true, nym := body.nym,
                          paymentCode := body.nym, challenge := body.challenge,
                          signature := body.signature },
                        .ok (body.nym.getD "") (body.nym.getD ""))) ∧
                  (sigOk = false →
                    verify s body nowMs sigOk sigErr = (s, .err sigErr))))))))) := by
  refine ⟨fun h1 => by simp [verify, h1], fun hch hnym hsig => ⟨?_, ?_⟩⟩
  · intro hp
    simp [verify, hch, hnym, hsig, hp]
  · intro nonce eo hp
    refine ⟨fun heo => by simp [verify, hch, hnym, hsig, hp, heo], ?_⟩
    rintro e rfl heo
    refine ⟨fun hnone => by simp [verify, hch, hnym, hsig, hp, heo, hnone], ?_⟩
    intro auth ha t ht
    refine ⟨fun hle => by simp [verify, hch, hnym, hsig, hp, heo, ha, ht, hle] <;> omega, ?_⟩
    intro hlt
    have hnle : ¬ (t ≤ ((nowMs / 1000 : Nat) : Int)) := not_le.mpr hlt
    refine ⟨fun hne => by simp [verify, hch, hnym, hsig, hp, heo, ha, ht, hne] <;> omega, ?_⟩
    rintro rfl
    refine ⟨fun hv => by simp [verify, hch, hnym, hsig, hp, heo, ha, ht, hv] <;> omega, ?_⟩
    intro hv
    refine ⟨fun hs => ?_, fun hs => ?_⟩ <;>
      subst hs <;>
      simp [verify, hch, hnym, hsig, hp, heo, ha, ht, hv] <;>
      omega

/-- Witness for C4: a proof missing the signature is answered `Missing
required fields` on the empty store, and an unparseable challenge is
answered `Invalid challenge format` with the store untouched. -/
theorem verifier_check_order_witness :
    verify [] ⟨some "auth47://ab?c=http://cb&e=1000", some "PM8Tsample", none⟩
        0 true "boom" =
      ([], .err "Missing required fields: challenge, nym, signature") ∧
    verify sampleStorePending ⟨some "notaurl", some "PM8Tsample", some "sig"⟩
        0 true "boom" =
      (sampleStorePending, .err "Invalid challenge format") :=
  ⟨(verifier_check_order []
      ⟨some "auth47://ab?c=http://cb&e=1000", some "PM8Tsample", none⟩
      0 true "boom").1 (by decide),
   ((verifier_check_order sampleStorePending
      ⟨some "notaurl", some "PM8Tsample", some "sig"⟩
      0 true "boom").2 (by decide) (by decide) (by decide)).1 (by decide)⟩

/-- C5: `verified` is monotonic and a verified record is immutable up
to deletion.  For every record already carrying `verified = true`, each
store-touching operation — issuance with a fresh nonce (freshness
reflects the negligible-collision random nonce; the issuance-time sweep
is part of `startAuth`), both redemption paths, and guestbook
submission — either leaves that record exactly as it was or deletes it
whole (sweep, guestbook consumption); no operation ever rewrites any of
its fields or resets `verified` to `false`.  Status polling
(`checkAuth`) takes no store argument back and is read-only by
construction. -/
theorem verified_immutable
    (s : Store) (k : String) (a : AuthRecord)
    (wf : storeWF s)
    (hk : mapGet s k = some a) (hv : a.verified = true) :
    (∀ cb nonce nowMs qrResult, mapGet s nonce = none →
       mapGet ((startAuth cb nonce nowMs qrResult s).1) k = some a ∨
       mapGet ((startAuth cb nonce nowMs qrResult s).1) k = none) ∧
    (∀ body nowMs sigOk sigErr,
       mapGet ((verify s body nowMs sigOk sigErr).1) k = some a) ∧
    (∀ body nowMs sigThrows sigOk,
       mapGet ((callbackPost s body nowMs sigThrows sigOk).1) k = some a) ∧
    (∀ msgs body dbAvailable persistOk nymName nymAvatar nowMs,
       mapGet ((guestbookSubmit s msgs body dbAvailable persistOk
                  nymName nymAvatar nowMs).1) k = some a ∨
       mapGet ((guestbookSubmit s msgs body dbAvailable persistOk
                  nymName nymAvatar nowMs).1) k = none) := by
  refine ⟨?_, ?_, ?_, ?_⟩
  · intro cb nonce nowMs qrResult hfresh
    have hne : nonce ≠ k := by
      intro he
      rw [he, hk] at hfresh
      exact Option.noConfusion hfresh
    cases qrResult with
    | error e =>
        left
        simpa [startAuth] using hk
    | ok qr =>
        have h1 : mapGet (mapSet s nonce
            { timestamp := nowMs, verified := false, expiry := nowMs / 1000 + 300 })
            k = some a := by
          rw [mapGet_mapSet_ne hne]
          exact hk
        simpa [startAuth, sweepOld] using
          mapGet_filter_or _ (storeWF_mapSet wf) h1
  · intro body nowMs sigOk sigErr
    rcases verify_fst_cases s body nowMs sigOk sigErr with h | ⟨nonce, auth, auth2, ha, hvf, h⟩
    · rw [h]
      exact hk
    · rw [h]
      have hne : nonce ≠ k := by
        intro he
        rw [he, hk] at ha
        injection ha with h3
        rw [← h3, hv] at hvf
        exact Bool.noConfusion hvf
      rw [mapGet_mapSet_ne hne]
      exact hk
  · intro body nowMs sigThrows sigOk
    rcases callbackPost_fst_cases s body nowMs sigThrows sigOk with h | ⟨nonce, auth, auth2, ha, hvf, h⟩
    · rw [h]
      exact hk
    · rw [h]
      have hne : nonce ≠ k := by
        intro he
        rw [he, hk] at ha
        injection ha with h3
        rw [← h3, hv] at hvf
        exact Bool.noConfusion hvf
      rw [mapGet_mapSet_ne hne]
      exact hk
  · intro msgs body dbAvailable persistOk nymName nymAvatar nowMs
    rcases guestbookSubmit_fst_cases s msgs body dbAvailable persistOk
        nymName nymAvatar nowMs with h | ⟨nonce, h⟩
    · rw [h]
      left
      exact hk
    · rw [h]
      by_cases hne : nonce = k
      · subst hne
        right
        exact mapGet_mapDelete_self wf
      · left
        rw [mapGet_mapDelete_ne hne]
        exact hk

/-- Witness for C5: the verified sample record survives a fresh
issuance, both redemption paths, and is only ever removed whole by a
guestbook submission. -/
theorem verified_immutable_witness :
    (mapGet ((startAuth "http://cb" "cd" 1000 (Except.ok "qr") sampleStoreVerified).1) "ab" =
        some sampleAuthVerified ∨
     mapGet ((startAuth "http://cb" "cd" 1000 (Except.ok "qr") sampleStoreVerified).1) "ab" =
        none) ∧
    mapGet ((verify sampleStoreVerified sampleBody 500000 true "boom").1) "ab" =
      some sampleAuthVerified ∧
    mapGet ((callbackPost sampleStoreVerified sampleBody 500000 false true).1) "ab" =
      some sampleAuthVerified ∧
    (mapGet ((guestbookSubmit sampleStoreVerified []
        ⟨some "ab", some "hi", some "c", some "sig", some "PM8Tsample"⟩
        true true "n" none 0).1) "ab" = some sampleAuthVerified ∨
     mapGet ((guestbookSubmit sampleStoreVerified []
        ⟨some "ab", some "hi", some "c", some "sig", some "PM8Tsample"⟩
        true true "n" none 0).1) "ab" = none) :=
  have h := verified_immutable sampleStoreVerified "ab" sampleAuthVerified
    (by decide) (by decide) (by decide)
  ⟨h.1 "http://cb" "cd" 1000 (Except.ok "qr") (by decide),
   h.2.1 sampleBody 500000 true "boom",
   h.2.2.1 sampleBody 500000 false true,
   h.2.2.2 [] ⟨some "ab", some "hi", some "c", some "sig", some "PM8Tsample"⟩
     true true "n" none 0⟩

/-- C6: immediately after a successful issuance, polling the returned
nonce answers `pending`; after a successful redemption of a pending
record's challenge via `POST /verify`, polling the nonce answers
`verified` carrying the `nym` (claimed identity) submitted in the
redeeming proof; polling a nonce with no record answers `invalid`. -/
theorem status_round_trip
    (s : Store) (body : ProofBody) (nowMs : Nat)
    (nonce e : String) (auth : AuthRecord) (t : Int) :
    (∀ cb nonceF qr s' r,
        startAuth cb nonceF nowMs (Except.ok qr) s = (s', Except.ok r) →
        checkAuth s' r.nonce = .pending) ∧
    (falsy body.challenge = false → falsy body.nym = false →
      falsy body.signature = false →
      parseChallenge (body.challenge.getD "") = some (nonce, some e) → e ≠ "" →
      mapGet s nonce = some auth → jsParseInt e = some t →
      ((nowMs / 1000 : Nat) : Int) < t → t = (auth.expiry : Int) →
      auth.verified = false → ∀ sigErr,
        checkAuth ((verify s body nowMs true sigErr).1) nonce =
          .verified body.nym body.nym body.challenge body.signature) ∧
    (∀ nonceU, mapGet s nonceU = none → checkAuth s nonceU = .invalid) := by
  refine ⟨?_, ?_, ?_⟩
  · intro cb nonceF qr s' r heq
    unfold startAuth at heq
    dsimp only at heq
    rw [Prod.mk.injEq] at heq
    obtain ⟨h1, h2⟩ := heq
    injection h2 with h2
    subst h1
    subst h2
    have hg : mapGet (sweepOld nowMs (mapSet s nonceF
        { timestamp := nowMs, verified := false, expiry := nowMs / 1000 + 300 }))
        nonceF = some { timestamp := nowMs, verified := false,
                        expiry := nowMs / 1000 + 300 } := by
      apply mapGet_filter_of_get mapGet_mapSet_self
      simp
    simp [checkAuth, hg]
  · intro hch hnym hsig hp he ha ht hlt hteq hv sigErr
    subst hteq
    have hfs : falsy (some e) = false := by
      simp only [falsy, Bool.eq_false_iff, ne_eq, String.isEmpty_iff]
      exact he
    have hstep : (verify s body nowMs true sigErr).1 = mapSet s nonce
        { auth with verified := true, nym := body.nym, paymentCode := body.nym,
                    challenge := body.challenge, signature := body.signature } := by
      have hnle : ¬ ((auth.expiry : Int) ≤ (nowMs : Int) / 1000) := by omega
      simp [verify, hch, hnym, hsig, hp, hfs, ha, ht, hv, hnle]
    rw [hstep]
    simp [checkAuth, mapGet_mapSet_self]
  · intro nonceU h
    simp [checkAuth, h]

/-- Witness for C6: issuing nonce `cd` on the empty store then polling
it answers `pending`; redeeming the pending sample record then polling
answers `verified` with the submitted identity; polling an unknown
nonce answers `invalid`. -/
theorem status_round_trip_witness :
    checkAuth ((startAuth "http://cb" "cd" 0 (Except.ok "qr") []).1)
      (IssueResponse.mk "auth47://cd?c=http://cb&e=300" "qr" "cd" "http://cb" 300).nonce =
      .pending ∧
    checkAuth ((verify sampleStorePending sampleBody 500000 true "boom").1) "ab" =
      .verified (some "PM8Tsample") (some "PM8Tsample")
        (some "auth47://ab?c=http://cb&e=1000") (some "sig") ∧
    checkAuth sampleStorePending "zz" = .invalid :=
  have h := status_round_trip sampleStorePending sampleBody 500000 "ab" "1000"
    sampleAuthPending 1000
  ⟨(status_round_trip [] sampleBody 0 "ab" "1000" sampleAuthPending 1000).1
      "http://cb" "cd" "qr" _ _ rfl,
   h.2.1 (by decide) (by decide) (by decide) (by decide) (by decide)
     (by decide) (by decide) (by decide) (by decide) (by decide) "boom",
   h.2.2 "zz" (by decide)⟩

/-- Exhaustive outcome analysis of `POST /api/guestbook/submit`: every
branch except the success path answers with store and message list
untouched; the success path requires a verified record whose stored
identity equals the submitted nym and a successful insert, appends the
document and then deletes the nonce. -/
theorem guestbookSubmit_shape (s : Store) (msgs : List MessageDoc)
    (body : SubmitBody) (dbAvailable persistOk : Bool)
    (nymName : String) (nymAvatar : Option String) (nowMs : Nat) :
    (guestbookSubmit s msgs body dbAvailable persistOk nymName nymAvatar nowMs =
        (s, msgs, .badRequest) ∨
     guestbookSubmit s msgs body dbAvailable persistOk nymName nymAvatar nowMs =
        (s, msgs, .dbUnavailable) ∨
     guestbookSubmit s msgs body dbAvailable persistOk nymName nymAvatar nowMs =
        (s, msgs, .unauthorized) ∨
     (guestbookSubmit s msgs body dbAvailable persistOk nymName nymAvatar nowMs =
        (s, msgs, .serverError) ∧ persistOk = false)) ∨
    (persistOk = true ∧ ∃ auth,
       mapGet s (body.nonce.getD "") = some auth ∧ auth.verified = true ∧
       auth.paymentCode = some (body.nym.getD "") ∧
       guestbookSubmit s msgs body dbAvailable persistOk nymName nymAvatar nowMs =
         (mapDelete s (body.nonce.getD ""),
          msgs ++ [messageDocOf body nymName nymAvatar nowMs], .success)) := by
  unfold guestbookSubmit
  dsimp only
  split
  · exact Or.inl (Or.inl rfl)
  · split
    · exact Or.inl (Or.inr (Or.inl rfl))
    · split
      · exact Or.inl (Or.inr (Or.inr (Or.inl rfl)))
      next auth heq =>
        split
        · exact Or.inl (Or.inr (Or.inr (Or.inl rfl)))
        next hv =>
          split
          · exact Or.inl (Or.inr (Or.inr (Or.inl rfl)))
          next hpc =>
            split
            next hp =>
              refine Or.inr ⟨by simpa using hp, auth, heq, ?_, ?_, rfl⟩
              · simpa using hv
              · simpa using hpc
            next hp =>
              exact Or.inl (Or.inr (Or.inr (Or.inr ⟨rfl, by simpa using hp⟩)))

/-- C9: a guestbook message is persisted only for a nonce whose record
is verified and whose stored identity equals the submitting nym —
a missing record, an unverified record, or an identity mismatch is
rejected as unauthorized with store and messages untouched — and the
one-shot consumption (deletion of the record) happens only on the
success path, after the message has been appended to the persisted
list: when the insert fails, nothing is appended and the record is not
deleted. -/
theorem guestbook_persist_then_consume
    (s : Store) (msgs : List MessageDoc) (body : SubmitBody)
    (dbAvailable persistOk : Bool) (nymName : String) (nymAvatar : Option String)
    (nowMs : Nat)
    (h1 : falsy body.nonce = false) (h2 : falsy body.message = false)
    (h3 : falsy body.challenge = false) (h4 : falsy body.signature = false)
    (h5 : falsy body.nym = false) (h6 : dbAvailable = true) :
    (mapGet s (body.nonce.getD "") = none →
      guestbookSubmit s msgs body dbAvailable persistOk nymName nymAvatar nowMs =
        (s, msgs, .unauthorized)) ∧
    (∀ auth, mapGet s (body.nonce.getD "") = some auth → auth.verified = false →
      guestbookSubmit s msgs body dbAvailable persistOk nymName nymAvatar nowMs =
        (s, msgs, .unauthorized)) ∧
    (∀ auth, mapGet s (body.nonce.getD "") = some auth →
      auth.paymentCode ≠ some (body.nym.getD "") →
      guestbookSubmit s msgs body dbAvailable persistOk nymName nymAvatar nowMs =
        (s, msgs, .unauthorized)) ∧
    (persistOk = false →
      (guestbookSubmit s msgs body dbAvailable persistOk nymName nymAvatar nowMs).1 = s ∧
      (guestbookSubmit s msgs body dbAvailable persistOk nymName nymAvatar nowMs).2.1 = msgs) ∧
    ((guestbookSubmit s msgs body dbAvailable persistOk nymName nymAvatar nowMs).2.1 ≠ msgs →
      persistOk = true ∧ ∃ auth,
        mapGet s (body.nonce.getD "") = some auth ∧ auth.verified = true ∧
        auth.paymentCode = some (body.nym.getD "") ∧
        guestbookSubmit s msgs body dbAvailable persistOk nymName nymAvatar nowMs =
          (mapDelete s (body.nonce.getD ""),
           msgs ++ [messageDocOf body nymName nymAvatar nowMs], .success)) ∧
    ((guestbookSubmit s msgs body dbAvailable persistOk nymName nymAvatar nowMs).1 ≠ s →
      persistOk = true ∧
      (guestbookSubmit s msgs body dbAvailable persistOk nymName nymAvatar nowMs).2.1 =
        msgs ++ [messageDocOf body nymName nymAvatar nowMs]) := by
  refine ⟨?_, ?_, ?_, ?_, ?_, ?_⟩
  · intro hget
    simp [guestbookSubmit, h1, h2, h3, h4, h5, h6, hget]
  · intro auth hget hv
    simp [guestbookSubmit, h1, h2, h3, h4, h5, h6, hget, hv]
  · intro auth hget hpc
    by_cases hv : auth.verified
    · simp [guestbookSubmit, h1, h2, h3, h4, h5, h6, hget, hv, hpc]
    · simp [guestbookSubmit, h1, h2, h3, h4, h5, h6, hget, hv]
  · intro hp
    rcases guestbookSubmit_shape s msgs body dbAvailable persistOk nymName nymAvatar nowMs with
      (h | h | h | ⟨h, _⟩) | ⟨htrue, _⟩
    · rw [h]
      exact ⟨rfl, rfl⟩
    · rw [h]
      exact ⟨rfl, rfl⟩
    · rw [h]
      exact ⟨rfl, rfl⟩
    · rw [h]
      exact ⟨rfl, rfl⟩
    · rw [hp] at htrue
      exact Bool.noConfusion htrue
  · intro hmsgs
    rcases guestbookSubmit_shape s msgs body dbAvailable persistOk nymName nymAvatar nowMs with
      (h | h | h | ⟨h, _⟩) | ⟨htrue, auth, hget, hv, hpc, h⟩
    · rw [h] at hmsgs
      exact absurd rfl hmsgs
    · rw [h] at hmsgs
      exact absurd rfl hmsgs
    · rw [h] at hmsgs
      exact absurd rfl hmsgs
    · rw [h] at hmsgs
      exact absurd rfl hmsgs
    · exact ⟨htrue, auth, hget, hv, hpc, h⟩
  · intro hs
    rcases guestbookSubmit_shape s msgs body dbAvailable persistOk nymName nymAvatar nowMs with
      (h | h | h | ⟨h, _⟩) | ⟨htrue, auth, hget, hv, hpc, h⟩
    · rw [h] at hs
      exact absurd rfl hs
    · rw [h] at hs
      exact absurd rfl hs
    · rw [h] at hs
      exact absurd rfl hs
    · rw [h] at hs
      exact absurd rfl hs
    · rw [h]
      exact ⟨htrue, rfl⟩

/-- Witness for C9: a submission whose nym does not match the verified
record's stored identity is rejected with everything untouched, and a
failing insert leaves both the store and the message list unchanged. -/
theorem guestbook_persist_then_consume_witness :
    guestbookSubmit sampleStoreVerified []
        ⟨some "ab", some "hi", some "c", some "sig", some "OTHER"⟩
        true true "n" none 0 =
      (sampleStoreVerified, [], .unauthorized) ∧
    ((guestbookSubmit sampleStoreVerified []
        ⟨some "ab", some "hi", some "c", some "sig", some "PM8Tsample"⟩
        true false "n" none 0).1 = sampleStoreVerified ∧
     (guestbookSubmit sampleStoreVerified []
        ⟨some "ab", some "hi", some "c", some "sig", some "PM8Tsample"⟩
        true false "n" none 0).2.1 = []) :=
  ⟨(guestbook_persist_then_consume sampleStoreVerified []
      ⟨some "ab", some "hi", some "c", some "sig", some "OTHER"⟩
      true true "n" none 0
      (by decide) (by decide) (by decide) (by decide) (by decide) rfl).2.2.1
      sampleAuthVerified (by decide) (by decide),
   (guestbook_persist_then_consume sampleStoreVerified []
      ⟨some "ab", some "hi", some "c", some "sig", some "PM8Tsample"⟩
      true false "n" none 0
      (by decide) (by decide) (by decide) (by decide) (by decide) rfl).2.2.2.1 rfl⟩

/-- C7: a successful issuance at time `nowMs` computes
`expiry = nowMs/1000 + 300` (whole Unix seconds plus five minutes),
answers with the URI built exactly as
`auth47://<nonce>?c=<callback>&e=<expiry>` with the callback URL
embedded verbatim by string concatenation, echoes the same expiry to
the caller, and inserts a fresh record for the nonce with
`verified = false` and that same expiry. -/
theorem issuance_format (cb nonce : String) (nowMs : Nat) (qr : String) (s : Store) :
    (startAuth cb nonce nowMs (Except.ok qr) s).2 =
      Except.ok
        { uri := "auth47://" ++ nonce ++ "?c=" ++ cb ++ "&e=" ++
            toString (nowMs / 1000 + 300),
          qr := qr, nonce := nonce, callbackUrl := cb,
          expiry := nowMs / 1000 + 300 } ∧
    mapGet ((startAuth cb nonce nowMs (Except.ok qr) s).1) nonce =
      some { timestamp := nowMs, verified := false, expiry := nowMs / 1000 + 300 } := by
  constructor
  · rfl
  · simp only [startAuth]
    exact mapGet_filter_of_get mapGet_mapSet_self (by simp)

/-- C8: issuance is atomic in the external QR encoder.  When the
encoder fails, the handler reports the error and returns the store
untouched (in particular, no record for the new nonce was inserted);
when it succeeds, the response carries the encoding and the fresh
record is present — both artefacts are produced, or neither. -/
theorem issuance_atomic (cb nonce : String) (nowMs : Nat) (s : Store) :
    (∀ emsg, startAuth cb nonce nowMs (Except.error emsg) s = (s, Except.error emsg)) ∧
    (∀ qr,
      (startAuth cb nonce nowMs (Except.ok qr) s).2 =
        Except.ok
          { uri := "auth47://" ++ nonce ++ "?c=" ++ cb ++ "&e=" ++
              toString (nowMs / 1000 + 300),
            qr := qr, nonce := nonce, callbackUrl := cb,
            expiry := nowMs / 1000 + 300 } ∧
      mapGet ((startAuth cb nonce nowMs (Except.ok qr) s).1) nonce =
        some { timestamp := nowMs, verified := false,
               expiry := nowMs / 1000 + 300 }) := by
  constructor
  · intro emsg
    rfl
  · intro qr
    constructor
    · rfl
    · simp only [startAuth]
      exact mapGet_filter_of_get mapGet_mapSet_self (by simp)

/-- C10: for a non-empty payment code, the validation endpoint answers
with `valid` equal to the conjunction of the `PM8T` prefix check, the
length-80 check, the Base58-alphabet check and acceptance by the
external parser (which drives both `checksum` and `version`); the
conjunction holds exactly when all four properties hold, and any length
other than 80 characters — in particular the 111-character Base58 form
of a standard payment code — forces `valid = false`. -/
theorem validate_payment_code_iff
    (parserOk : String → Bool) (pc : String) (hne : pc ≠ "") :
    validatePaymentCode parserOk (some pc) =
      ValidateResult.ok
        (startsWithPM8T pc && (pc.length == 80) && base58Test pc &&
         parserOk pc && parserOk pc)
        { format := startsWithPM8T pc, length := pc.length == 80,
          base58 := base58Test pc, checksum := parserOk pc,
          version := parserOk pc } ∧
    ((startsWithPM8T pc && (pc.length == 80) && base58Test pc &&
      parserOk pc && parserOk pc) = true ↔
      (startsWithPM8T pc = true ∧ pc.length = 80 ∧ base58Test pc = true ∧
       parserOk pc = true)) ∧
    (pc.length ≠ 80 →
      (startsWithPM8T pc && (pc.length == 80) && base58Test pc &&
       parserOk pc && parserOk pc) = false) := by
  have hfs : falsy (some pc) = false := by
    simp only [falsy, Bool.eq_false_iff, ne_eq, String.isEmpty_iff]
    exact hne
  refine ⟨?_, ?_, ?_⟩
  · simp [validatePaymentCode, hfs]
  · simp only [Bool.and_eq_true, beq_iff_eq]
    tauto
  · intro hlen
    have hl : (pc.length == 80) = false := by simpa using hlen
    simp [hl]

/-- Witness for C10: the 111-character Base58 form is judged invalid
even when the external parser would accept it. -/
theorem validate_payment_code_iff_witness :
    sample111.length = 111 ∧
    validatePaymentCode (fun _ => true) (some sample111) =
      ValidateResult.ok false
        { format := startsWithPM8T sample111, length := sample111.length == 80,
          base58 := base58Test sample111, checksum := true, version := true } := by
  have h := validate_payment_code_iff (fun _ => true) sample111 (by decide)
  exact ⟨by decide, by rw [h.1, h.2.2 (by decide)]⟩

end BIP47Site
